import Mathlib

/-!
# Verification of the smart-delivery frontend and its documented engine

Shallow embedding of the two React applications in this repository
(`src/frontend/src/App.jsx`, the customer checkout flow, and the admin
settings console in `src/unnamed/part_000`) together with the parts of the
scoring/quoting engine that the repository documents but does not ship
(`src/README.md`, spec §4.2 and §4.6) — those are modelled from the spec and
marked as such.

Conventions of the embedding:
* JS numbers that the code keeps integral are `ℤ`/`ℕ`; coordinates and
  percentages are `ℚ`; the spec-modelled scoring formulas use `ℝ`
  (they are stated with `exp` over the reals).
* A JS object with dynamically accessed properties is an association list
  `List (String × β)` with JS semantics: reading returns the first binding,
  writing an existing key updates it in place, writing a new key appends it.
* A value that may be `undefined` in JS is an `Option`.
-/

namespace SmartDelivery

/-- JS-object read (`obj[k]`): first binding wins, missing key is `undefined`. -/
def assocGet {β : Type} (l : List (String × β)) (k : String) : Option β :=
  match l with
  | [] => none
  | p :: r => if p.1 = k then some p.2 else assocGet r k

/-- JS-object write (`{ ...obj, [k]: v }` at property granularity): an existing
key keeps its position and gets the new value, a new key is appended. -/
def assocSet {β : Type} (l : List (String × β)) (k : String) (v : β) :
    List (String × β) :=
  match l with
  | [] => [(k, v)]
  | p :: r => if p.1 = k then (k, v) :: r else p :: assocSet r k v

/-! ## JSON values (for request bodies built by the apps) -/

/-- A JSON value, as produced by `JSON.stringify` on the plain data the apps
send.  `jnull` also models the serialisation of `NaN` (JSON.stringify turns
`NaN` into `null`). -/
inductive JsonVal where
  | jnull : JsonVal
  | jnum (q : ℚ) : JsonVal
  | jstr (s : String) : JsonVal
  | jarr (l : List JsonVal) : JsonVal
  | jobj (fields : List (String × JsonVal)) : JsonVal

/-- Whether a JSON value is a number literal. -/
def JsonVal.isNumber : JsonVal → Bool
  | .jnum _ => true
  | _ => false

/-! ## Customer checkout flow — `src/frontend/src/App.jsx` -/

/-- A toast shown by `notify(msg, type)` (App.jsx:68-71).  The message is an
`Option` because the code can pass a value that is `undefined` in JS. -/
structure Toast where
  msg : Option String
  type : String
  deriving DecidableEq

/-- Seed product, from the `PRODUCTS` constant (App.jsx:22-26). -/
structure Product where
  id : String
  name : String
  priceCents : ℤ
  unitFactor : ℤ
  deriving DecidableEq

/-- The `PRODUCTS` constant (App.jsx:22-26), colors omitted. -/
def PRODUCTS : List Product :=
  [ { id := "p_1", name := "Classic Cookie", priceCents := 300, unitFactor := 1 },
    { id := "p_2", name := "Double Choc", priceCents := 350, unitFactor := 1 },
    { id := "p_3", name := "Party Box (6)", priceCents := 1600, unitFactor := 6 } ]

/-- One line of the `POST /cart` body built by `createCart` (App.jsx:102-106). -/
structure CartLine where
  productId : String
  qty : ℤ
  deriving DecidableEq

/-- `createCart`'s body items (App.jsx:102-106): entries of the `items` state
object, keeping only strictly positive quantities, in object insertion order. -/
def createCartItems (items : List (String × ℤ)) : List CartLine :=
  (items.filter (fun p => 0 < p.2)).map (fun p => { productId := p.1, qty := p.2 })

/-- `createCart` (App.jsx:99-127): if the filtered item list is empty the flow
notifies an error and sends nothing (`none`); otherwise it POSTs the body. -/
def createCartRequest (items : List (String × ℤ)) : Option (List CartLine) :=
  let body := createCartItems items
  if body.isEmpty then none else some body

/-- The minus button of a quantity editor (App.jsx:384):
`Math.max(0, (s[p.id] || 0) - 1)`. -/
def qtyDecrement (q : ℤ) : ℤ := max 0 (q - 1)

/-- The number-input handler of a quantity editor (App.jsx:389):
`Math.max(0, parseInt(e.target.value || "0", 10))` — `v` is the integer the
string parses to (empty string parses as 0). -/
def qtyInput (v : ℤ) : ℤ := max 0 v

/-- The plus button of a quantity editor (App.jsx:391): `(s[p.id] || 0) + 1`. -/
def qtyIncrement (q : ℤ) : ℤ := q + 1

/-- The `POST /checkout/quote` body built by `quoteAndPay` (App.jsx:161-165):
`JSON.stringify({ cartId, slotId, lat: pos[0], lon: pos[1] })`. -/
def quoteRequestBody (cartId slotId : String) (lat lon : ℚ) :
    List (String × JsonVal) :=
  [ ("cartId", .jstr cartId), ("slotId", .jstr slotId),
    ("lat", .jnum lat), ("lon", .jnum lon) ]

/-- The `detail` object of a quote-error response body (README §4 error
example); both properties may be absent in a parsed body. -/
structure QuoteErrorDetail where
  error : Option String
  message : Option String
  deriving DecidableEq

/-- A parsed quote/payment failure body: `JSON.parse(e.message)` as far as the
catch block of `quoteAndPay` inspects it (`detail?.detail?.error`,
`detail.detail.message`). -/
structure QuoteErrorBody where
  detail : Option QuoteErrorDetail
  deriving DecidableEq

/-- The catch block of `quoteAndPay` (App.jsx:190-200).  `parsed` is the result
of `JSON.parse(e.message)`: `none` when the parse throws (non-JSON body),
`some body` otherwise.  Returns the toast that `notify` shows. -/
def handleQuoteFailure (parsed : Option QuoteErrorBody) : Toast :=
  match parsed with
  | some body =>
    match body.detail with
    | some d =>
      if d.error = some "SOLO_MIN_UNITS_REQUIRED" then
        { msg := d.message, type := "warn" }
      else
        { msg := some "Quote/payment failed.", type := "error" }
    | none => { msg := some "Quote/payment failed.", type := "error" }
  | none => { msg := some "Quote/payment failed.", type := "error" }

/-- Capacity snapshot of a listed slot (README `SlotOut.capacity`). -/
structure SlotCapacity where
  total : ℕ
  used : ℕ
  deriving DecidableEq

/-- A slot as rendered by the listing step (README `SlotOut`; consumed at
App.jsx:293-325). -/
structure SlotOut where
  slotId : String
  startAt : String
  endAt : String
  baseDeliveryFeeCents : ℤ
  discountPct : ℚ
  discountCents : ℤ
  finalDeliveryFeeCents : ℤ
  label : String
  capacity : SlotCapacity
  requiresSoloMinUnits : Bool
  soloMinUnits : ℕ
  deriving DecidableEq

/-- The solo-minimum hint of a slot card (App.jsx:313-315):
`{s.requiresSoloMinUnits && (<div className="warn">No nearby deliveries.
Minimum {s.soloMinUnits} units for this slot.</div>)}` — rendered exactly when
the flag is true, with that slot's own `soloMinUnits` interpolated. -/
def soloHintView (s : SlotOut) : Option String :=
  if s.requiresSoloMinUnits then
    some ("No nearby deliveries. Minimum " ++ toString s.soloMinUnits ++
      " units for this slot.")
  else none

/-! ### ISO-8601 serialisation and the slot-listing time range

`Date.prototype.toISOString` for the epoch-millisecond values the app works
with (non-negative, before year 10000), using the standard Gregorian
days-to-civil conversion. -/

/-- Civil date (year, month, day) of a day count since 1970-01-01 (Gregorian). -/
def civilFromDays (z : ℕ) : ℕ × ℕ × ℕ :=
  let z' := z + 719468
  let era := z' / 146097
  let doe := z' % 146097
  let yoe := (doe - doe / 1460 + doe / 36524 - doe / 146096) / 365
  let y := yoe + era * 400
  let doy := doe - (365 * yoe + yoe / 4 - yoe / 100)
  let mp := (5 * doy + 2) / 153
  let d := doy - (153 * mp + 2) / 5 + 1
  let m := if mp < 10 then mp + 3 else mp - 9
  (if m ≤ 2 then y + 1 else y, m, d)

/-- Left-pad the decimal representation of `n` with zeros to width `w`. -/
def padNum (w : ℕ) (n : ℕ) : String :=
  let s := toString n
  String.mk (List.replicate (w - s.length) (Char.ofNat 48)) ++ s

/-- `new Date(ms).toISOString()` for `0 ≤ ms` within years 1970–9999:
`YYYY-MM-DDTHH:mm:ss.sssZ` in UTC. -/
def isoOfEpochMs (ms : ℕ) : String :=
  let days := ms / 86400000
  let rem := ms % 86400000
  let ymd := civilFromDays days
  let hh := rem / 3600000
  let mi := rem % 3600000 / 60000
  let ss := rem % 60000 / 1000
  let msPart := rem % 1000
  padNum 4 ymd.1 ++ "-" ++ padNum 2 ymd.2.1 ++ "-" ++ padNum 2 ymd.2.2 ++ "T" ++
    padNum 2 hh ++ ":" ++ padNum 2 mi ++ ":" ++ padNum 2 ss ++ "." ++
    padNum 3 msPart ++ "Z"

/-- The range object returned by `useNowIsoRange(days)` (App.jsx:31-37):
`now` is read once (`nowMs`), `to` is `new Date(now.getTime() + days *
86400000)`, and both are serialised with `toISOString()`. -/
structure IsoRange where
  fromISO : String
  toISO : String
  deriving DecidableEq

/-- `useNowIsoRange` (App.jsx:31-37), with the clock reading made explicit. -/
def useNowIsoRange (nowMs : ℕ) (days : ℕ) : IsoRange :=
  let toMs := nowMs + days * 86400000
  { fromISO := isoOfEpochMs nowMs, toISO := isoOfEpochMs toMs }

/-- One hexadecimal digit (uppercase, as `encodeURIComponent` produces). -/
def hexDigitChar (n : ℕ) : Char :=
  if n < 10 then Char.ofNat (48 + n) else Char.ofNat (55 + n)

/-- Characters `encodeURIComponent` leaves unescaped. -/
def isUnescapedURIChar (c : Char) : Bool :=
  (65 ≤ c.toNat && c.toNat ≤ 90) || (97 ≤ c.toNat && c.toNat ≤ 122) ||
  (48 ≤ c.toNat && c.toNat ≤ 57) ||
  c = Char.ofNat 45 || c = Char.ofNat 95 || c = Char.ofNat 46 ||
  c = Char.ofNat 33 || c = Char.ofNat 126 || c = Char.ofNat 42 ||
  c = Char.ofNat 39 || c = Char.ofNat 40 || c = Char.ofNat 41

/-- `encodeURIComponent` restricted to ASCII strings (the ISO timestamps it is
applied to are ASCII): unreserved characters pass through, anything else
becomes `%HH`. -/
def encodeURIComponent (s : String) : String :=
  String.mk (s.data.flatMap (fun c =>
    if isUnescapedURIChar c then [c]
    else [Char.ofNat 37, hexDigitChar (c.toNat / 16), hexDigitChar (c.toNat % 16)]))

/-- The `GET /delivery/slots` URL built by `fetchSlots` (App.jsx:137-139); the
`lat`/`lon` interpolations are taken as the strings JS produces for them. -/
def fetchSlotsUrl (apiBase cartId lat lon : String) (r : IsoRange) : String :=
  apiBase ++ "/delivery/slots?cartId=" ++ cartId ++ "&lat=" ++ lat ++
    "&lon=" ++ lon ++ "&fromISO=" ++ encodeURIComponent r.fromISO ++
    "&toISO=" ++ encodeURIComponent r.toISO

/-! ## Admin settings console — `src/unnamed/part_000` -/

/-- A value held in one scalar field of the admin settings object: either the
number `Number(value)` produced (`none` inside `num` models `NaN`) or a raw
string — `updateNumber` stores the empty string for a cleared input. -/
inductive SettingVal where
  | str (s : String) : SettingVal
  | num (v : Option ℚ) : SettingVal
  deriving DecidableEq

/-- An availability window as edited by the console (part_000:98-110). -/
structure AvailabilityWindow where
  daysOfWeek : List ℕ
  startTime : String
  endTime : String
  deriving DecidableEq

/-- The settings object held in React state (part_000:16): its scalar scoring
fields as a JS object (association list) plus the `availability` array. -/
structure Settings where
  fields : List (String × SettingVal)
  availability : List AvailabilityWindow
  deriving DecidableEq

/-- Model of the JS `Number()` conversion for the plain decimal strings a
`type="number"` input yields (optional sign, digits, optional fraction);
anything else is taken to `NaN` (`none`).  Exponent forms are out of the
model's scope — C10 only depends on the conversion being applied, not on its
value. -/
def jsNumberOfString (s : String) : Option ℚ :=
  match s.data with
  | [] => some 0
  | cs =>
    let body : ℚ × List Char :=
      match cs with
      | c :: r =>
        if c = Char.ofNat 45 then (-1, r)
        else if c = Char.ofNat 43 then (1, r) else (1, cs)
      | [] => (1, cs)
    let ip := body.2.takeWhile (fun c => c.isDigit)
    let rest := body.2.drop ip.length
    let fracPart : Option (List Char) :=
      match rest with
      | [] => some []
      | c :: f =>
        if c = Char.ofNat 46 && f.all (fun x => x.isDigit) then some f else none
    match fracPart with
    | none => none
    | some f =>
      if ip.isEmpty && f.isEmpty then none
      else
        let digitsVal : List Char → ℕ :=
          fun l => l.foldl (fun a c => 10 * a + (c.toNat - 48)) 0
        some (body.1 * ((digitsVal ip : ℚ) + (digitsVal f : ℚ) / (10 : ℚ) ^ f.length))

/-- `updateNumber(field, value)` (part_000:71-74):
`const num = value === "" ? "" : Number(value)` stored at `[field]`. -/
def updateNumber (st : Settings) (field : String) (value : String) : Settings :=
  { st with
    fields := assocSet st.fields field
      (if value = "" then .str "" else .num (jsNumberOfString value)) }

/-- JSON.stringify of one settings field value (`NaN` serialises as `null`). -/
def jsonOfSettingVal : SettingVal → JsonVal
  | .str s => .jstr s
  | .num (some q) => .jnum q
  | .num none => .jnull

/-- JSON.stringify of an availability window. -/
def jsonOfAvailability (w : AvailabilityWindow) : JsonVal :=
  .jobj [ ("daysOfWeek", .jarr (w.daysOfWeek.map (fun d => .jnum d))),
          ("startTime", .jstr w.startTime), ("endTime", .jstr w.endTime) ]

/-- The `PUT /settings` body `JSON.stringify(settings)` (part_000:52-56) at
field granularity. -/
def putSettingsBody (st : Settings) : List (String × JsonVal) :=
  st.fields.map (fun p => (p.1, jsonOfSettingVal p.2)) ++
    [("availability", .jarr (st.availability.map jsonOfAvailability))]

/-- The `weekdayMap` constant (part_000:5-13). -/
def weekdayMap : List (ℕ × String) :=
  [(1, "Mon"), (2, "Tue"), (3, "Wed"), (4, "Thu"), (5, "Fri"), (6, "Sat"), (7, "Sun")]

/-- `toggleDay(index, dayValue)` (part_000:84-96) acting on one window's
`daysOfWeek` array: build a `Set` from it (dedup, keeping first occurrences),
delete or add `d`, then `Array.from(...).sort((a, b) => a - b)` — an ascending
numeric sort. -/
def toggleDay (days : List ℕ) (d : ℕ) : List ℕ :=
  let current := days.dedup
  let updated := if d ∈ current then current.filter (fun x => x ≠ d) else current ++ [d]
  updated.insertionSort (· ≤ ·)

/-- The invariant C7 speaks about: a duplicate-free ascending list of
integers in 1–7 (set semantics). -/
def daysOfWeekOK (days : List ℕ) : Prop :=
  days.Sorted (· < ·) ∧ ∀ x ∈ days, 1 ≤ x ∧ x ≤ 7

instance (days : List ℕ) : Decidable (daysOfWeekOK days) := by
  unfold daysOfWeekOK; infer_instance

/-- Outcome of the `fetch` + `res.json()` sequence inside `saveSettings`
(part_000:52-58): the network call may reject, the response may be non-OK
(its text is thrown), the body may fail to parse, or a settings object comes
back. -/
inductive SaveOutcome where
  | networkError : SaveOutcome
  | httpError (body : String) : SaveOutcome
  | invalidJson : SaveOutcome
  | success (data : Settings) : SaveOutcome
  deriving DecidableEq

/-- The React state of the admin console that `saveSettings` touches
(part_000:16-20). -/
structure AdminState where
  settings : Option Settings
  saving : Bool
  error : Option String
  toast : Option Toast
  deriving DecidableEq

/-- Net state transition of `saveSettings` (part_000:47-68) for a given fetch
outcome: early return when no settings are loaded; on success the settings are
replaced by the response body; on any failure only `saving`, `error` and the
toast change. -/
def saveSettings (st : AdminState) (out : SaveOutcome) : AdminState :=
  match st.settings with
  | none => st
  | some _ =>
    match out with
    | .success data =>
      { st with settings := some data, saving := false, error := none,
                toast := some { msg := some "Settings saved successfully ✅",
                                type := "success" } }
    | _ =>
      { st with saving := false, error := some "Failed to save settings",
                toast := some { msg := some "Failed to save settings ❌",
                                type := "error" } }

/-! ## Capacity & Confirmation Ledger — modelled from the spec

The backend engine is not among the checked-in sources (only the API README
and the spec describe it), so `confirm` is modelled from the spec. -/

/-- Confirmation state of a quote (spec §3: `{pending, confirmed}`). -/
inductive QuoteState where
  | pending : QuoteState
  | confirmed : QuoteState
  deriving DecidableEq

/-- Modelled from the spec: the stored Quote as the ledger needs it (spec §3) —
the referenced slot, the confirmation state, and the per-confirmation capacity
amount (the cart's delivery-unit count, or one, per §9's design choice). -/
structure QuoteRec where
  slotId : String
  state : QuoteState
  units : ℕ
  deriving DecidableEq

/-- Modelled from the spec: the shared state the Capacity & Confirmation
Ledger acts on — stored quotes by quoteId and per-slot `used` capacity
counters (spec §2 component 7, §4.6). -/
structure LedgerState where
  quotes : List (String × QuoteRec)
  used : List (String × ℕ)
  deriving DecidableEq

/-- Result of `confirm` (spec §4.6): success, or NotFound for an unknown id. -/
inductive ConfirmResult where
  | ok : ConfirmResult
  | notFound : ConfirmResult
  deriving DecidableEq

/-- Modelled from the spec: `confirm(quoteId)` (spec §4.6) — looks up the
Quote; NotFound if unknown; if already confirmed, success with no side effect;
if pending, increments the referenced slot's `used` by the quote's unit amount
and flips the state to confirmed. -/
def confirm (st : LedgerState) (qid : String) : LedgerState × ConfirmResult :=
  match assocGet st.quotes qid with
  | none => (st, .notFound)
  | some q =>
    match q.state with
    | .confirmed => (st, .ok)
    | .pending =>
      ({ quotes := assocSet st.quotes qid { q with state := .confirmed },
         used := assocSet st.used q.slotId
           ((assocGet st.used q.slotId).getD 0 + q.units) },
       .ok)

/-! ## Score & Discount Calculator — modelled from the spec -/

/-- Modelled from the spec: the ScoringParameters snapshot (spec §3) as far as
the calculator reads it. -/
structure ScoringParams where
  radiusM : ℝ
  t0Min : ℝ
  d0M : ℝ
  maxDiscount : ℝ
  k : ℝ
  sMin : ℝ

/-- Modelled from the spec: a candidate neighbor returned by the Neighbor
Finder (spec §4.1) — a (distance, time gap) pair. -/
structure NeighborCand where
  distM : ℝ
  timeGapMin : ℝ

/-- Modelled from the spec: one neighbor's weight,
`exp(−distance / d0M) × exp(−timeGapMinutes / t0Min)` (spec §4.2). -/
noncomputable def neighborWeight (p : ScoringParams) (n : NeighborCand) : ℝ :=
  Real.exp (-(n.distM / p.d0M)) * Real.exp (-(n.timeGapMin / p.t0Min))

/-- Modelled from the spec: the batching score, sum of the neighbor weights
(zero when there are no neighbors) (spec §4.2). -/
noncomputable def batchScore (p : ScoringParams) (ns : List NeighborCand) : ℝ :=
  (ns.map (neighborWeight p)).sum

/-- Modelled from the spec: the discount percentage for a score,
`maxDiscount × (1 − exp(−k × score))`, clamped defensively to
`[0, maxDiscount]` (spec §4.2). -/
noncomputable def discountPct (p : ScoringParams) (score : ℝ) : ℝ :=
  max 0 (min p.maxDiscount (p.maxDiscount * (1 - Real.exp (-(p.k * score)))))

/-- Modelled from the spec: the discount the calculator returns for a list of
candidate neighbors (spec §4.2). -/
noncomputable def calcDiscount (p : ScoringParams) (ns : List NeighborCand) : ℝ :=
  discountPct p (batchScore p ns)

/-- A concrete parameter snapshot with the README's default values
(README `GET /delivery/slots` example). -/
noncomputable def exampleParams : ScoringParams :=
  { radiusM := 3000, t0Min := 30, d0M := 800, maxDiscount := 1/5, k := 1,
    sMin := 1/20 }

/-! ### Concrete example values used by the witnesses -/

/-- The README's `SOLO_MIN_UNITS_REQUIRED` error body (README §4 error example). -/
def exampleSoloFailure : QuoteErrorBody :=
  { detail := some { error := some "SOLO_MIN_UNITS_REQUIRED", message := some "Add at least 6 items or choose a discounted time." } }

/-- The README's solo slot `sl_xyz` (README `GET /delivery/slots` example). -/
def exampleSoloSlot : SlotOut :=
  { slotId := "sl_xyz", startAt := "2025-11-05T17:00:00Z", endAt := "2025-11-05T17:30:00Z",
    baseDeliveryFeeCents := 450, discountPct := 0, discountCents := 0,
    finalDeliveryFeeCents := 450, label := "Standard", capacity := { total := 12, used := 0 },
    requiresSoloMinUnits := true, soloMinUnits := 6 }

/-- A loaded admin-console state mid-save. -/
def exampleAdminState : AdminState :=
  { settings := some { fields := [("k", .num (some 1))], availability := [] },
    saving := true, error := none, toast := none }

/-- A settings object with the README's default scoring values. -/
def exampleSettings : Settings :=
  { fields := [("baseDeliveryFeeCents", .num (some 450)),
               ("minDeliveryFeeCents", .num (some 200)),
               ("maxDiscount", .num (some (1/5))), ("k", .num (some 1)),
               ("radiusM", .num (some 3000)), ("t0Min", .num (some 30)),
               ("minSoloUnits", .num (some 6))],
    availability := [{ daysOfWeek := [1, 2, 3, 4, 5], startTime := "13:00", endTime := "17:00" }] }

/-- A ledger holding one pending two-unit quote on a slot with 3 used. -/
def exampleLedger : LedgerState :=
  { quotes := [("q_1", { slotId := "sl_1", state := .pending, units := 2 })],
    used := [("sl_1", 3)] }

/-! ## Association-list lemmas -/

theorem assocGet_assocSet_self {β : Type} (l : List (String × β)) (k : String) (v : β) :
    assocGet (assocSet l k v) k = some v := by
  induction l with
  | nil => simp [assocSet, assocGet]
  | cons p r ih =>
    by_cases h : p.1 = k
    · simp [assocSet, assocGet, h]
    · simp [assocSet, assocGet, h, ih]

theorem assocGet_assocSet_ne {β : Type} (l : List (String × β)) (k k' : String) (v : β)
    (h : k' ≠ k) : assocGet (assocSet l k v) k' = assocGet l k' := by
  have hne : ¬ k = k' := fun hh => h hh.symm
  induction l with
  | nil => simp [assocSet, assocGet, hne]
  | cons p r ih =>
    by_cases hp : p.1 = k
    · subst hp
      simp [assocSet, assocGet, hne]
    · simp [assocSet, assocGet, hp, ih]

theorem assocGet_map_value {β γ : Type} (g : β → γ) (l : List (String × β)) (k : String) :
    assocGet (l.map (fun p => (p.1, g p.2))) k = (assocGet l k).map g := by
  induction l with
  | nil => rfl
  | cons p r ih => by_cases h : p.1 = k <;> simp [assocGet, h, ih]

theorem assocGet_append_of_some {β : Type} {l₁ : List (String × β)}
    (l₂ : List (String × β)) (k : String) (v : β)
    (h : assocGet l₁ k = some v) : assocGet (l₁ ++ l₂) k = some v := by
  induction l₁ with
  | nil => simp [assocGet] at h
  | cons p r ih =>
    by_cases hp : p.1 = k
    · rw [assocGet, if_pos hp] at h
      rw [List.cons_append, assocGet, if_pos hp]
      exact h
    · rw [assocGet, if_neg hp] at h
      rw [List.cons_append, assocGet, if_neg hp]
      exact ih h

/-! ## Validation of the `toISOString` embedding on known dates -/

theorem isoOfEpochMs_epoch : isoOfEpochMs 0 = "1970-01-01T00:00:00.000Z" := by decide

theorem isoOfEpochMs_readme_example :
    isoOfEpochMs 1762336800000 = "2025-11-05T10:00:00.000Z" ∧
    isoOfEpochMs (1762336800000 + 3 * 86400000) = "2025-11-08T10:00:00.000Z" := by
  constructor <;> decide

/-! ## The claims -/

/-- C1: Confirmation is idempotent per quoteId — the first `confirm(quoteId)`
on a pending quote returns success, increments the referenced slot's `used`
capacity by the quote's unit amount exactly once, and flips the quote's state
to confirmed; a second `confirm(quoteId)` returns success with no state change
at all, so two confirms increment `used` exactly once; `confirm` on an unknown
quoteId fails with NotFound. -/
theorem C1_confirm_idempotent (st : LedgerState) (qid : String) (q : QuoteRec)
    (hq : assocGet st.quotes qid = some q) (hp : q.state = .pending) :
    (confirm st qid).2 = .ok ∧
    (assocGet (confirm st qid).1.used q.slotId).getD 0
      = (assocGet st.used q.slotId).getD 0 + q.units ∧
    assocGet (confirm st qid).1.quotes qid
      = some { slotId := q.slotId, state := .confirmed, units := q.units } ∧
    confirm (confirm st qid).1 qid = ((confirm st qid).1, .ok) ∧
    (∀ qid', assocGet st.quotes qid' = none →
      confirm st qid' = (st, .notFound)) := by
  obtain ⟨qslot, qstate, qunits⟩ := q
  cases hp
  have hc : confirm st qid
      = ({ quotes := assocSet st.quotes qid
             { slotId := qslot, state := .confirmed, units := qunits },
           used := assocSet st.used qslot
             ((assocGet st.used qslot).getD 0 + qunits) },
         .ok) := by
    unfold confirm
    rw [hq]
  refine ⟨by rw [hc], ?_, ?_, ?_, ?_⟩
  · rw [hc]
    simp [assocGet_assocSet_self]
  · rw [hc]
    exact assocGet_assocSet_self _ _ _
  · rw [hc]
    simp only [confirm, assocGet_assocSet_self]
  · intro qid' hnone
    unfold confirm
    rw [hnone]

/-- C1 witness: the idempotence theorem at a concrete one-quote ledger. -/
theorem C1_confirm_idempotent_witness :
    (confirm exampleLedger "q_1").2 = .ok ∧
    (assocGet (confirm exampleLedger "q_1").1.used "sl_1").getD 0
      = (assocGet exampleLedger.used "sl_1").getD 0 + 2 ∧
    assocGet (confirm exampleLedger "q_1").1.quotes "q_1"
      = some { slotId := "sl_1", state := .confirmed, units := 2 } ∧
    confirm (confirm exampleLedger "q_1").1 "q_1"
      = ((confirm exampleLedger "q_1").1, .ok) ∧
    (∀ qid', assocGet exampleLedger.quotes qid' = none →
      confirm exampleLedger qid' = (exampleLedger, .notFound)) :=
  C1_confirm_idempotent exampleLedger "q_1"
    { slotId := "sl_1", state := .pending, units := 2 } (by decide) rfl

/-- C2: for every scoring-parameter snapshot (with its `maxDiscount` in range,
i.e. non-negative) and every list of candidate neighbors, the calculator
returns `maxDiscount × (1 − exp(−k × score))` clamped to `[0, maxDiscount]`;
for every score input the discount lies in `[0, maxDiscount]`, and score 0
(no neighbors) gives discount 0. -/
theorem C2_discount_bounded (p : ScoringParams) (hmd : 0 ≤ p.maxDiscount) :
    (∀ ns : List NeighborCand,
      calcDiscount p ns
        = max 0 (min p.maxDiscount
            (p.maxDiscount * (1 - Real.exp (-(p.k * batchScore p ns)))))) ∧
    (∀ s : ℝ, 0 ≤ discountPct p s ∧ discountPct p s ≤ p.maxDiscount) ∧
    discountPct p 0 = 0 ∧
    batchScore p [] = 0 := by
  refine ⟨fun ns => rfl,
    fun s => ⟨le_max_left 0 _, max_le hmd (min_le_left _ _)⟩, ?_, rfl⟩
  unfold discountPct
  rw [mul_zero, neg_zero, Real.exp_zero, sub_self, mul_zero, min_eq_right hmd,
    max_self]

/-- C2 witness: the bound theorem at the README's default parameters. -/
theorem C2_discount_bounded_witness :
    discountPct exampleParams 0 = 0 ∧
    (0 ≤ discountPct exampleParams 1 ∧
      discountPct exampleParams 1 ≤ exampleParams.maxDiscount) ∧
    batchScore exampleParams [] = 0 := by
  have h := C2_discount_bounded exampleParams (by norm_num [exampleParams])
  exact ⟨h.2.2.1, h.2.1 1, h.2.2.2⟩

/-- C3 counterexample: at a concrete cart, slot and position, the quote body
built by `quoteAndPay` has keys cartId, slotId, lat, lon — not the claimed
cartId, slotId, locationId, and no locationId at all. -/
theorem C3_counterexample :
    (quoteRequestBody "c_a1b2" "sl_abc" 60 24).map Prod.fst
      = ["cartId", "slotId", "lat", "lon"] ∧
    (quoteRequestBody "c_a1b2" "sl_abc" 60 24).map Prod.fst
      ≠ ["cartId", "slotId", "locationId"] ∧
    "locationId" ∉ (quoteRequestBody "c_a1b2" "sl_abc" 60 24).map Prod.fst := by
  refine ⟨rfl, by decide, by decide⟩

/-- C3 (amended): every quote-creation request the checkout flow sends to
POST /checkout/quote carries exactly the fields cartId, slotId, lat and lon —
the selected map coordinates sent directly, with no locationId field. -/
theorem C3_quote_body_fields (cartId slotId : String) (lat lon : ℚ) :
    (quoteRequestBody cartId slotId lat lon).map Prod.fst
      = ["cartId", "slotId", "lat", "lon"] ∧
    assocGet (quoteRequestBody cartId slotId lat lon) "cartId" = some (.jstr cartId) ∧
    assocGet (quoteRequestBody cartId slotId lat lon) "slotId" = some (.jstr slotId) ∧
    assocGet (quoteRequestBody cartId slotId lat lon) "lat" = some (.jnum lat) ∧
    assocGet (quoteRequestBody cartId slotId lat lon) "lon" = some (.jnum lon) ∧
    "locationId" ∉ (quoteRequestBody cartId slotId lat lon).map Prod.fst := by
  refine ⟨rfl, rfl, rfl, rfl, rfl, by simp [quoteRequestBody]⟩

/-- C4: whenever the quote/payment failure body parses to JSON whose
`detail.error` equals "SOLO_MIN_UNITS_REQUIRED", the checkout flow surfaces
that body's own message as a warn toast; every other failure (different error
code, missing detail, unparsable body) yields the generic failure message. -/
theorem C4_solo_error_surfaced (parsed : Option QuoteErrorBody) :
    (∀ b d, parsed = some b → b.detail = some d →
        d.error = some "SOLO_MIN_UNITS_REQUIRED" →
        handleQuoteFailure parsed = { msg := d.message, type := "warn" }) ∧
    ((∀ b d, parsed = some b → b.detail = some d →
        d.error ≠ some "SOLO_MIN_UNITS_REQUIRED") →
      handleQuoteFailure parsed
        = { msg := some "Quote/payment failed.", type := "error" }) := by
  constructor
  · rintro b d rfl hd he
    simp [handleQuoteFailure, hd, he]
  · intro h
    rcases parsed with _ | b
    · simp [handleQuoteFailure]
    · cases hb : b.detail with
      | none => simp [handleQuoteFailure, hb]
      | some d =>
        have hne := h b d rfl hb
        simp [handleQuoteFailure, hb, hne]

/-- C4 witness: the README's solo error body produces a warn toast with its
own message; an unparsable body produces the generic failure toast. -/
theorem C4_solo_error_surfaced_witness :
    handleQuoteFailure (some exampleSoloFailure)
      = { msg := some "Add at least 6 items or choose a discounted time.",
          type := "warn" } ∧
    handleQuoteFailure none
      = { msg := some "Quote/payment failed.", type := "error" } := by
  constructor
  · exact (C4_solo_error_surfaced _).1 exampleSoloFailure _ rfl rfl rfl
  · exact (C4_solo_error_surfaced none).2 (fun b d hb => nomatch hb)

/-- C5: every slot-listing request uses the default now .. now+3 days range —
`fromISO` is the ISO-8601 UTC serialisation of the instant the range was
computed and `toISO` the serialisation of that instant plus exactly
3 × 86 400 000 ms, and `fetchSlots` embeds exactly these (URI-encoded) in the
request URL. -/
theorem C5_slots_range_three_days (nowMs : ℕ) (apiBase cartId lat lon : String) :
    useNowIsoRange nowMs 3
      = { fromISO := isoOfEpochMs nowMs,
          toISO := isoOfEpochMs (nowMs + 3 * 86400000) } ∧
    fetchSlotsUrl apiBase cartId lat lon (useNowIsoRange nowMs 3)
      = apiBase ++ "/delivery/slots?cartId=" ++ cartId ++ "&lat=" ++ lat ++
        "&lon=" ++ lon ++ "&fromISO=" ++ encodeURIComponent (isoOfEpochMs nowMs) ++
        "&toISO=" ++ encodeURIComponent (isoOfEpochMs (nowMs + 259200000)) :=
  ⟨rfl, rfl⟩

/-- C6: a slot card shows the solo-minimum hint iff the slot's
`requiresSoloMinUnits` flag is true, and the hint states that slot's own
`soloMinUnits` as the required minimum. -/
theorem C6_solo_hint (s : SlotOut) :
    ((soloHintView s).isSome ↔ s.requiresSoloMinUnits = true) ∧
    (s.requiresSoloMinUnits = true →
      soloHintView s = some ("No nearby deliveries. Minimum " ++
        toString s.soloMinUnits ++ " units for this slot.")) ∧
    (s.requiresSoloMinUnits = false → soloHintView s = none) := by
  cases hs : s.requiresSoloMinUnits with
  | false => simp [soloHintView, hs]
  | true => simp [soloHintView, hs]

/-- C6 witness: the README's solo slot (soloMinUnits 6) shows the hint with 6. -/
theorem C6_solo_hint_witness :
    soloHintView exampleSoloSlot
      = some ("No nearby deliveries. Minimum " ++
          toString exampleSoloSlot.soloMinUnits ++ " units for this slot.") :=
  (C6_solo_hint exampleSoloSlot).2.1 rfl

/-- C7: when a window's `daysOfWeek` is a duplicate-free ascending list of
integers in 1–7 and the toggled day comes from the weekday map,
`toggleDay` removes the day if present and adds it if absent, and the result
is again a duplicate-free ascending list of integers in 1–7. -/
theorem C7_toggleDay_invariant (days : List ℕ) (d : ℕ)
    (hinv : daysOfWeekOK days) (hd : d ∈ weekdayMap.map Prod.fst) :
    daysOfWeekOK (toggleDay days d) ∧
    (∀ x, x ∈ toggleDay days d ↔ ((x ∈ days ∧ x ≠ d) ∨ (x = d ∧ d ∉ days))) := by
  obtain ⟨hsort, hbound⟩ := hinv
  have hnodup : days.Nodup := hsort.imp (fun h => ne_of_lt h)
  have hd17 : 1 ≤ d ∧ d ≤ 7 := by
    simp [weekdayMap] at hd
    omega
  have hded : days.dedup = days := List.dedup_eq_self.mpr hnodup
  have htd : toggleDay days d
      = (if d ∈ days then days.filter (fun x => x ≠ d)
         else days ++ [d]).insertionSort (· ≤ ·) := by
    unfold toggleDay
    rw [hded]
  have hundup : (if d ∈ days then days.filter (fun x => x ≠ d)
      else days ++ [d]).Nodup := by
    by_cases hmem : d ∈ days
    · rw [if_pos hmem]
      exact hnodup.filter _
    · rw [if_neg hmem]
      rw [List.nodup_append]
      refine ⟨hnodup, List.nodup_singleton d, ?_⟩
      intro a ha hb
      simp at hb
      subst hb
      exact hmem ha
  have hperm : List.Perm (toggleDay days d)
      (if d ∈ days then days.filter (fun x => x ≠ d) else days ++ [d]) := by
    rw [htd]
    exact List.perm_insertionSort _ _
  have hmem_u : ∀ x,
      x ∈ (if d ∈ days then days.filter (fun x => x ≠ d) else days ++ [d])
        ↔ ((x ∈ days ∧ x ≠ d) ∨ (x = d ∧ d ∉ days)) := by
    intro x
    by_cases hmemd : d ∈ days
    · rw [if_pos hmemd]
      simp [List.mem_filter, hmemd]
    · rw [if_neg hmemd]
      simp only [List.mem_append, List.mem_singleton]
      constructor
      · rintro (hx | rfl)
        · exact Or.inl ⟨hx, fun he => hmemd (he ▸ hx)⟩
        · exact Or.inr ⟨rfl, hmemd⟩
      · rintro (⟨hx, _⟩ | ⟨rfl, _⟩)
        · exact Or.inl hx
        · exact Or.inr rfl
  have hsorted_le : (toggleDay days d).Sorted (· ≤ ·) := by
    rw [htd]
    exact List.sorted_insertionSort _ _
  have hnodup_res : (toggleDay days d).Nodup := hperm.symm.nodup hundup
  have hsorted_lt : (toggleDay days d).Sorted (· < ·) := hsorted_le.lt_of_le hnodup_res
  refine ⟨⟨hsorted_lt, ?_⟩, fun x => (hperm.mem_iff).trans (hmem_u x)⟩
  intro x hx
  rcases (hmem_u x).mp (hperm.mem_iff.mp hx) with ⟨hx', _⟩ | ⟨rfl, _⟩
  · exact hbound x hx'
  · exact hd17

/-- C7 witness: toggling Wednesday (3) off the Mon/Wed/Fri selection. -/
theorem C7_toggleDay_invariant_witness :
    daysOfWeekOK (toggleDay [1, 3, 5] 3) ∧
    (∀ x, x ∈ toggleDay [1, 3, 5] 3 ↔
      ((x ∈ [1, 3, 5] ∧ x ≠ 3) ∨ (x = 3 ∧ 3 ∉ [1, 3, 5]))) :=
  C7_toggleDay_invariant [1, 3, 5] 3 (by decide) (by decide)

/-- C8: when the PUT /settings request fails in any way, `saveSettings` leaves
the held settings object unchanged; the settings object is replaced by the
response body only on success. -/
theorem C8_save_failure_keeps_settings (st : AdminState) (out : SaveOutcome) :
    ((∀ data, out ≠ SaveOutcome.success data) →
      (saveSettings st out).settings = st.settings) ∧
    (∀ data, out = SaveOutcome.success data → st.settings ≠ none →
      (saveSettings st out).settings = some data) := by
  constructor
  · intro hfail
    rcases hs : st.settings with _ | s
    · simp [saveSettings, hs]
    · rcases out with _ | b | _ | data
      · simp [saveSettings, hs]
      · simp [saveSettings, hs]
      · simp [saveSettings, hs]
      · exact absurd rfl (hfail data)
  · rintro data rfl hsome
    rcases hs : st.settings with _ | s
    · exact absurd hs hsome
    · simp [saveSettings, hs]

/-- C8 witness: a network error keeps the settings; a successful response
replaces them with its body. -/
theorem C8_save_failure_keeps_settings_witness :
    (saveSettings exampleAdminState .networkError).settings
      = exampleAdminState.settings ∧
    (saveSettings exampleAdminState
        (.success { fields := [], availability := [] })).settings
      = some { fields := [], availability := [] } := by
  constructor
  · exact (C8_save_failure_keeps_settings exampleAdminState .networkError).1
      (fun data h => nomatch h)
  · exact (C8_save_failure_keeps_settings exampleAdminState _).2
      { fields := [], availability := [] } rfl (by decide)

/-- C9: every line item of a cart-creation body has qty ≥ 1; no request is
sent when no product has positive quantity; and each quantity-editor handler
keeps a non-negative integer quantity non-negative. -/
theorem C9_cart_quantities (items : List (String × ℤ)) (q v : ℤ) (hq : 0 ≤ q) :
    (∀ l ∈ createCartItems items, 1 ≤ l.qty) ∧
    (createCartRequest items = none ↔ ∀ p ∈ items, p.2 ≤ 0) ∧
    (0 ≤ qtyDecrement q ∧ 0 ≤ qtyInput v ∧ 0 ≤ qtyIncrement q) := by
  refine ⟨?_, ?_, le_max_left 0 _, le_max_left 0 _, ?_⟩
  · intro l hl
    simp only [createCartItems, List.mem_map] at hl
    obtain ⟨p, hp, rfl⟩ := hl
    have hpos := List.of_mem_filter hp
    simp at hpos
    show 1 ≤ p.2
    omega
  · constructor
    · intro h p hp
      by_contra hpos
      push_neg at hpos
      have hmem : ({ productId := p.1, qty := p.2 } : CartLine)
          ∈ createCartItems items := by
        simp only [createCartItems, List.mem_map]
        exact ⟨p, List.mem_filter.mpr ⟨hp, by simpa using hpos⟩, rfl⟩
      have hne : createCartItems items ≠ [] := List.ne_nil_of_mem hmem
      simp [createCartRequest, List.isEmpty_iff, hne] at h
    · intro h
      have hf : items.filter (fun p => 0 < p.2) = [] := by
        rw [List.filter_eq_nil_iff]
        intro p hp
        simpa using h p hp
      simp [createCartRequest, createCartItems, hf]
  · show 0 ≤ q + 1
    omega

/-- C9 witness: the default cart state (2, 1, 0) and concrete editor inputs. -/
theorem C9_cart_quantities_witness :
    (∀ l ∈ createCartItems [("p_1", 2), ("p_2", 1), ("p_3", 0)], 1 ≤ l.qty) ∧
    (createCartRequest [("p_1", 2), ("p_2", 1), ("p_3", 0)] = none ↔
      ∀ p ∈ [("p_1", (2 : ℤ)), ("p_2", 1), ("p_3", 0)], p.2 ≤ 0) ∧
    (0 ≤ qtyDecrement 0 ∧ 0 ≤ qtyInput (-5) ∧ 0 ≤ qtyIncrement 0) :=
  C9_cart_quantities [("p_1", 2), ("p_2", 1), ("p_3", 0)] 0 (-5) (by decide)

/-- C10: clearing a numeric settings field stores the empty string (not a
number) there, so the PUT /settings body serialises that field as a JSON
string — a non-numeric value; any non-empty input stores `Number(value)`. -/
theorem C10_updateNumber_empty_string (st : Settings) (f value : String) :
    (value = "" →
      assocGet (updateNumber st f value).fields f = some (.str "") ∧
      assocGet (putSettingsBody (updateNumber st f value)) f = some (.jstr "") ∧
      (∀ jv, assocGet (putSettingsBody (updateNumber st f value)) f = some jv →
        jv.isNumber = false)) ∧
    (value ≠ "" →
      assocGet (updateNumber st f value).fields f
        = some (.num (jsNumberOfString value))) := by
  constructor
  · rintro rfl
    have h1 : assocGet (updateNumber st f "").fields f = some (.str "") := by
      simp only [updateNumber, if_pos]
      exact assocGet_assocSet_self _ _ _
    refine ⟨h1, ?_, ?_⟩
    · unfold putSettingsBody
      apply assocGet_append_of_some
      rw [assocGet_map_value, h1]
      rfl
    · intro jv hjv
      have h2 : assocGet (putSettingsBody (updateNumber st f "")) f
          = some (.jstr "") := by
        unfold putSettingsBody
        apply assocGet_append_of_some
        rw [assocGet_map_value, h1]
        rfl
      rw [h2] at hjv
      cases hjv
      rfl
  · intro hne
    have hv : (if value = "" then SettingVal.str ""
        else SettingVal.num (jsNumberOfString value))
          = .num (jsNumberOfString value) := if_neg hne
    simp only [updateNumber, hv]
    exact assocGet_assocSet_self _ _ _

/-- C10 witness: clearing `k` stores and serialises the empty string; typing
"12.5" into `t0Min` stores its numeric conversion. -/
theorem C10_updateNumber_empty_string_witness :
    assocGet (updateNumber exampleSettings "k" "").fields "k" = some (.str "") ∧
    assocGet (putSettingsBody (updateNumber exampleSettings "k" "")) "k"
      = some (.jstr "") ∧
    assocGet (updateNumber exampleSettings "t0Min" "12.5").fields "t0Min"
      = some (.num (jsNumberOfString "12.5")) := by
  refine ⟨((C10_updateNumber_empty_string exampleSettings "k" "").1 rfl).1,
          ((C10_updateNumber_empty_string exampleSettings "k" "").1 rfl).2.1,
          (C10_updateNumber_empty_string exampleSettings "t0Min" "12.5").2 (by decide)⟩

end SmartDelivery
